import Mathlib

/-!
Verification development for the testwise-ai log-analysis core
(`app/parser.py` and `app/summary.py`).

The Python code is shallowly embedded: lines are lists of characters, the
two regular expressions of `parse_txt` become deterministic matching
functions (the character classes of both patterns make the regex engine
deterministic on them), pandas DataFrames become a `cols`/`rows` structure
whose cells distinguish a string from the NaN missing marker, and the
fallible `parse_file` returns `Except`.
-/

namespace Testwise

/-! ## Character classes and literal matching

The timestamp group of both regexes is the character class of digits,
dash, colon and space; `\w` is modelled as ASCII alphanumeric or
underscore. -/

def isTsChar (c : Char) : Bool :=
  c.isDigit || c = '-' || c = ':' || c = ' '

def isWordChar (c : Char) : Bool :=
  c.isAlphanum || c = '_'

/-- Consume an exact literal from the front of the input, returning the
rest, or fail. -/
def expectLit : List Char → List Char → Option (List Char)
  | [], cs => some cs
  | _ :: _, [] => none
  | l :: ls, c :: cs => if c = l then expectLit ls cs else none

/-- Python str.strip, on character lists. -/
def trimChars (cs : List Char) : List Char :=
  ((cs.dropWhile Char.isWhitespace).reverse.dropWhile Char.isWhitespace).reverse

/-- Python str.splitlines / line splitting on a newline character. -/
def splitOnNl : List Char → List (List Char)
  | [] => [[]]
  | c :: rest =>
    if c = '\n' then [] :: splitOnNl rest
    else
      match splitOnNl rest with
      | l :: ls => (c :: l) :: ls
      | [] => [[c]]

/-- Split one line at commas (field separation of the delimited-table
reader). -/
def splitOnComma : List Char → List (List Char)
  | [] => [[]]
  | c :: rest =>
    if c = ',' then [] :: splitOnComma rest
    else
      match splitOnComma rest with
      | l :: ls => (c :: l) :: ls
      | [] => [[c]]

/-! ## The two line grammars of parse_txt

Source regexes (module `app/parser.py`):
  info_pattern   matches `[<timestamp>] [INFO] Running test: <test_case> [type=<test_type>]`
  result_pattern matches `[<timestamp>] [RESULT] <test_case> [<module>] <status>( - <error>)?`
Both are applied with re.match, i.e. they only constrain a prefix of the
line; both start with the identical bracketed-timestamp prefix. Since the
timestamp class excludes the closing bracket and `\w` excludes the space,
greedy matching of the repeated classes is deterministic. -/

/-- Shared deterministic prefix of both regexes: an opening bracket, a
nonempty run of timestamp characters, then a closing bracket and a
space. Returns the timestamp text and the rest of the line. -/
def matchTsHeader (cs : List Char) : Option (List Char × List Char) :=
  match cs with
  | [] => none
  | c :: rest =>
    if c = '[' then
      let ts := rest.takeWhile isTsChar
      if ts.isEmpty then none
      else
        match expectLit "] ".toList (rest.dropWhile isTsChar) with
        | some r => some (ts, r)
        | none => none
    else none

structure InfoMatch where
  timestamp : String
  test_case : String
  test_type : String
deriving DecidableEq, Repr

structure ResultMatch where
  timestamp : String
  test_case : String
  module : String
  status : String
  error : String
deriving DecidableEq, Repr

/-- The optional error suffix group `(?: - (?P<error>.+))?` of the result
regex: it contributes a captured error only when a literal space-dash-space
follows the status immediately and at least one character follows it;
a missing capture is normalized to the empty string by parse_txt. -/
def errorSuffix (cs : List Char) : String :=
  match expectLit " - ".toList cs with
  | some rest => if rest.isEmpty then "" else ⟨rest⟩
  | none => ""

/-- A nonempty greedy run of word characters (a `\w+` group followed in
the pattern by a non-word character, so the greedy run is exact): returns
the run and the rest. -/
def wordRun (cs : List Char) : Option (List Char × List Char) :=
  let w := cs.takeWhile isWordChar
  if w.isEmpty then none else some (w, cs.dropWhile isWordChar)

/-- Embeds re.match of info_pattern on an (already stripped) line. -/
def matchInfo (cs : List Char) : Option InfoMatch :=
  (matchTsHeader cs).bind fun p =>
  (expectLit "[INFO] Running test: ".toList p.2).bind fun r2 =>
  (wordRun r2).bind fun tcp =>
  (expectLit " [type=".toList tcp.2).bind fun r4 =>
  (wordRun r4).bind fun ttp =>
  (expectLit "]".toList ttp.2).bind fun _ =>
  some ⟨⟨p.1⟩, ⟨tcp.1⟩, ⟨ttp.1⟩⟩

/-- The status alternation `PASS|FAIL` of the result pattern (PASS is
tried first; the two literals are mutually exclusive) together with the
optional error-suffix group: returns the captured status and the
normalized error. -/
def statusAlt (cs : List Char) : Option (String × String) :=
  match expectLit "PASS".toList cs with
  | some r7 => some ("PASS", errorSuffix r7)
  | none =>
    match expectLit "FAIL".toList cs with
    | some r7 => some ("FAIL", errorSuffix r7)
    | none => none

/-- Embeds re.match of result_pattern on an (already stripped) line.
Since re.match does not anchor the end of the line, any text after the
status that is not a space-dash-space error suffix is simply ignored. -/
def matchResult (cs : List Char) : Option ResultMatch :=
  (matchTsHeader cs).bind fun p =>
  (expectLit "[RESULT] ".toList p.2).bind fun r2 =>
  (wordRun r2).bind fun tcp =>
  (expectLit " [".toList tcp.2).bind fun r4 =>
  (wordRun r4).bind fun mdp =>
  (expectLit "] ".toList mdp.2).bind fun r6 =>
  (statusAlt r6).bind fun se =>
  some ⟨⟨p.1⟩, ⟨tcp.1⟩, ⟨mdp.1⟩, se.1, se.2⟩

/-! ## The correlator and the per-line loop of parse_txt -/

/-- One record of the free-text parser: the groupdict of a result match
plus the correlated test_type. -/
structure ResultRec where
  timestamp : String
  test_case : String
  module : String
  status : String
  error : String
  test_type : String
deriving DecidableEq, Repr

/-- The correlation dictionary test_case to test_type.  A dict update is a
cons, so the most recent write is found first. -/
abbrev CorrMap := List (String × String)

/-- Dict lookup: the most recent binding of the key, if any. -/
def lookupType? (m : CorrMap) (tc : String) : Option String :=
  match m with
  | [] => none
  | (k, v) :: rest => if k = tc then some v else lookupType? rest tc

/-- Embeds test_type_map.get(test_case, ""). -/
def lookupType (m : CorrMap) (tc : String) : String :=
  (lookupType? m tc).getD ""

/-- Effect of one (unstripped) line on the correlation dict:
an INFO match writes test_type_map[test_case] = test_type. -/
def stepMap (m : CorrMap) (line : List Char) : CorrMap :=
  match matchInfo (trimChars line) with
  | some i => (i.test_case, i.test_type) :: m
  | none => m

/-- The record contributed by one (unstripped) line: an INFO match
contributes none (the loop continues), a RESULT match contributes its
groupdict with the correlated test_type, anything else contributes
nothing. -/
def lineRecord (m : CorrMap) (line : List Char) : Option ResultRec :=
  match matchInfo (trimChars line) with
  | some _ => none
  | none =>
    match matchResult (trimChars line) with
    | some r => some ⟨r.timestamp, r.test_case, r.module, r.status, r.error, lookupType m r.test_case⟩
    | none => none

/-- The main loop of parse_txt: fold the lines over the correlation dict,
collecting result records in order. -/
def runLines (m : CorrMap) : List (List Char) → List ResultRec
  | [] => []
  | l :: ls => (lineRecord m l).toList ++ runLines (stepMap m l) ls

/-- parse_txt reduced to its record list: split the content into lines
and run the matching loop with an empty correlation dict. -/
def parse_txt_records (content : String) : List ResultRec :=
  runLines [] (splitOnNl content.toList)

/-- The test_type the correlation dict associates with a test_case after a
list of lines has been processed: the type declared by the most recent
INFO line for that test_case, if any (later lines are consulted first, so
a later declaration overwrites an earlier one). -/
def lastInfoType (lines : List (List Char)) (tc : String) : Option String :=
  match lines with
  | [] => none
  | l :: ls =>
    match lastInfoType ls tc with
    | some t => some t
    | none =>
      match matchInfo (trimChars l) with
      | some i => if i.test_case = tc then some i.test_type else none
      | none => none

/-! ## DataFrames

A pandas DataFrame is modelled as a column-name list plus rows of cells;
a cell is either a string or the NaN missing marker that pandas uses for
values it could not supply. -/

inductive Field where
  | nan : Field
  | str : String → Field
deriving DecidableEq, Repr

structure DataFrame where
  cols : List String
  rows : List (List Field)
deriving DecidableEq, Repr

def EXPECTED_COLUMNS : List String :=
  ["timestamp", "test_case", "module", "status", "error", "test_type"]

/-- The row a parse_txt record dict becomes: every value was produced as
a string (a missing error capture was already normalized to ""). -/
def recToRow (r : ResultRec) : List Field :=
  [.str r.timestamp, .str r.test_case, .str r.module, .str r.status,
   .str r.error, .str r.test_type]

/-- parse_txt as a DataFrame.  pd.DataFrame(results) lays the columns out
in the key order of the record dicts, which is already the expected
order; when results is empty the loop of parse_txt appends every expected
column, so in both cases the returned frame has exactly the expected
columns in order. -/
def txtDataFrame (content : String) : DataFrame :=
  ⟨EXPECTED_COLUMNS, (parse_txt_records content).map recToRow⟩

/-- Value of the named column in a row of the frame (first matching
column; NaN when the row is too short). -/
def cellAt (df : DataFrame) (c : String) (row : List Field) : Field :=
  row.getD (df.cols.indexOf c) .nan

/-- df[cols] column projection. -/
def projectDF (df : DataFrame) (cs : List String) : DataFrame :=
  ⟨cs, df.rows.map (fun row => cs.map (fun c => cellAt df c row))⟩

/-- pd.read_csv cell decoding: an empty cell becomes the NaN missing
marker, anything else stays the literal string. -/
def parseCell (cs : List Char) : Field :=
  if cs.isEmpty then .nan else .str ⟨cs⟩

/-- pd.read_csv: the first non-blank line is the header naming the
columns, every further non-blank line is a comma-separated data row
(short rows are padded with NaN, excess cells are dropped, as the frame
is rectangular). -/
def read_csv (content : String) : DataFrame :=
  match (splitOnNl content.toList).filter (fun l => !(trimChars l).isEmpty) with
  | [] => ⟨[], []⟩
  | header :: dataLines =>
    let cols := (splitOnComma header).map (fun c => (⟨c⟩ : String))
    let n := cols.length
    ⟨cols, dataLines.map (fun l =>
      (((splitOnComma l).map parseCell) ++ List.replicate n Field.nan).take n)⟩

/-! ## parse_file -/

/-- Input of parse_file: either a path string naming a file with the given
content, or a file-like object (the code only asks whether the input is a
str; a stream's name is never consulted). -/
inductive FileInput where
  | path (name : String) (content : String)
  | stream (name : String) (content : String)

/-- The two ValueError cases of parse_file. -/
inductive ParseError where
  | missingColumns (missing : List String)
  | unsupportedType (path : String)
deriving DecidableEq, Repr

/-- The quote character of a Python list repr. -/
def pyQuote : String := String.singleton (Char.ofNat 39)

/-- Python repr of a list of strings, as interpolated into the
missing-columns message. -/
def pyListRepr (xs : List String) : String :=
  "[" ++ String.intercalate ", " (xs.map (fun s => pyQuote ++ s ++ pyQuote)) ++ "]"

/-- The ValueError message texts raised by parse_file. -/
def renderError : ParseError → String
  | .missingColumns ms => "Missing expected columns: " ++ pyListRepr ms
  | .unsupportedType p => "Unsupported file type: " ++ p

/-- Python str.endswith. -/
def endswith (s suffix : String) : Bool :=
  suffix.toList.isSuffixOf s.toList

/-- The CSV branch of parse_file: read the table, compute the expected
columns absent from it, raise listing them if any, otherwise project to
the expected columns (the backfill loop before the projection is a no-op
here, since no expected column is missing). -/
def csvBranch (content : String) : Except ParseError DataFrame :=
  if (EXPECTED_COLUMNS.filter (fun c => !((read_csv content).cols.contains c))).isEmpty then
    .ok (projectDF (read_csv content) EXPECTED_COLUMNS)
  else
    .error (.missingColumns
      (EXPECTED_COLUMNS.filter (fun c => !((read_csv content).cols.contains c))))

/-- parse_file: a str input dispatches on its (case-sensitive) extension,
anything else is read as free text; both text routes end in the
backfill-and-project step, whose net result is txtDataFrame. -/
def parse_file (input : FileInput) : Except ParseError DataFrame :=
  match input with
  | .path name content =>
    if endswith name ".csv" then csvBranch content
    else if endswith name ".txt" || endswith name ".log" then
      .ok (txtDataFrame content)
    else .error (.unsupportedType name)
  | .stream _ content => .ok (txtDataFrame content)

/-! ## The aggregator (summarize_log of app/summary.py)

error_summary = df[df.status == FAIL].groupby(error).size()
                  .sort_values(ascending=False).reset_index(name=count)

groupby with the default sort=True lists the distinct keys in ascending
lexicographic order and drops NaN keys; Series.sort_values(ascending=False)
argsorts ascending (stably, at these sizes) and then reverses the order,
so rows with equal counts come out in reverse of the grouped key order. -/

/-- The error strings of the FAIL rows that take part in the grouping
(a NaN error cell is dropped by groupby). -/
def failErrors (df : DataFrame) : List String :=
  df.rows.filterMap (fun row =>
    if cellAt df "status" row = Field.str "FAIL" then
      match cellAt df "error" row with
      | .str s => some s
      | .nan => none
    else none)

/-- Python string comparison: lexicographic on code points, a proper
prefix sorting first. -/
def lexLt : List Char → List Char → Bool
  | [], [] => false
  | [], _ :: _ => true
  | _ :: _, [] => false
  | a :: as, b :: bs =>
    if a.toNat < b.toNat then true
    else if b.toNat < a.toNat then false
    else lexLt as bs

def strLt (a b : String) : Bool :=
  lexLt a.toList b.toList

/-- Insert a key into an ascending list of distinct keys. -/
def insertKeyAsc (x : String) : List String → List String
  | [] => [x]
  | y :: ys =>
    if strLt x y then x :: y :: ys
    else if x = y then y :: ys
    else y :: insertKeyAsc x ys

/-- The distinct group keys in ascending order (groupby with sort=True). -/
def groupKeys : List String → List String
  | [] => []
  | e :: es => insertKeyAsc e (groupKeys es)

/-- Stable insertion for the ascending argsort by count: an element goes
in front of the first element whose count is at least its own. -/
def insertByCount (x : String × Nat) : List (String × Nat) → List (String × Nat)
  | [] => [x]
  | y :: ys => if x.2 ≤ y.2 then x :: y :: ys else y :: insertByCount x ys

/-- Stable ascending sort by count. -/
def sortByCountAsc : List (String × Nat) → List (String × Nat)
  | [] => []
  | x :: xs => insertByCount x (sortByCountAsc xs)

/-- The failure ranking built from the FAIL-row error list: group (keys
ascending), count, sort ascending by count stably, then reverse for the
descending order. -/
def errorSummary (errs : List String) : List (String × Nat) :=
  (sortByCountAsc ((groupKeys errs).map (fun k => (k, errs.count k)))).reverse

/-- top_errors of summarize_log, as (error, count) rows. -/
def top_errors (df : DataFrame) : List (String × Nat) :=
  errorSummary (failErrors df)

/-- Specification order for the rows before the final reversal: ascending
count, rows of equal count in ascending key order. -/
def LexAsc (a b : String × Nat) : Prop :=
  a.2 < b.2 ∨ (a.2 = b.2 ∧ strLt a.1 b.1 = true)

/-- Specification order of the final failure ranking: descending count,
rows of equal count in descending key order. -/
def LexDesc (a b : String × Nat) : Prop :=
  b.2 < a.2 ∨ (a.2 = b.2 ∧ strLt b.1 a.1 = true)


/-! ## Lemmas about the two matchers -/

theorem expectLit_eq : ∀ (lit cs r : List Char), expectLit lit cs = some r → cs = lit ++ r := by
  intro lit
  induction lit with
  | nil =>
    intro cs r h
    simp only [expectLit, Option.some.injEq] at h
    simp [h]
  | cons l ls ih =>
    intro cs r h
    cases cs with
    | nil => simp [expectLit] at h
    | cons c cs =>
      simp only [expectLit] at h
      by_cases hc : c = l
      · subst hc
        simp only [if_pos rfl] at h
        simpa using ih cs r h
      · simp [hc] at h

theorem tag_clash : ∀ (r2 r3 : List Char),
    "[RESULT] ".toList ++ r2 = "[INFO] Running test: ".toList ++ r3 → False := by
  intro r2 r3 h
  have h1 : "[RESULT] ".toList = ['[', 'R', 'E', 'S', 'U', 'L', 'T', ']', ' '] := rfl
  have h2 : "[INFO] Running test: ".toList =
      ['[', 'I', 'N', 'F', 'O', ']', ' ', 'R', 'u', 'n', 'n', 'i', 'n', 'g', ' ',
       't', 'e', 's', 't', ':', ' '] := rfl
  rw [h1, h2] at h
  simp at h

theorem result_info_disjoint (cs : List Char) (r : ResultMatch)
    (h : matchResult cs = some r) : matchInfo cs = none := by
  unfold matchResult at h
  unfold matchInfo
  cases hts : matchTsHeader cs with
  | none => rfl
  | some p =>
    rw [hts] at h
    rw [Option.some_bind] at h ⊢
    cases hI : expectLit "[INFO] Running test: ".toList p.2 with
    | none => rfl
    | some r3 =>
      exfalso
      cases hR : expectLit "[RESULT] ".toList p.2 with
      | none => rw [hR] at h; simp at h
      | some r2 =>
        exact tag_clash r2 r3 ((expectLit_eq _ _ _ hR).symm.trans (expectLit_eq _ _ _ hI))

theorem info_result_disjoint (cs : List Char) (i : InfoMatch)
    (h : matchInfo cs = some i) : matchResult cs = none := by
  unfold matchInfo at h
  unfold matchResult
  cases hts : matchTsHeader cs with
  | none => rfl
  | some p =>
    rw [hts] at h
    rw [Option.some_bind] at h ⊢
    cases hR : expectLit "[RESULT] ".toList p.2 with
    | none => rfl
    | some r2 =>
      exfalso
      cases hI : expectLit "[INFO] Running test: ".toList p.2 with
      | none => rw [hI] at h; simp at h
      | some r3 =>
        exact tag_clash r2 r3 ((expectLit_eq _ _ _ hR).symm.trans (expectLit_eq _ _ _ hI))

theorem statusAlt_cases (cs : List Char) (se : String × String)
    (h : statusAlt cs = some se) : se.1 = "PASS" ∨ se.1 = "FAIL" := by
  unfold statusAlt at h
  cases hP : expectLit "PASS".toList cs with
  | some r7 =>
    rw [hP] at h
    injection h with h
    left; rw [← h]
  | none =>
    rw [hP] at h
    cases hF : expectLit "FAIL".toList cs with
    | some r7 =>
      rw [hF] at h
      injection h with h
      right; rw [← h]
    | none => rw [hF] at h; exact absurd h (by simp)

theorem matchResult_status (cs : List Char) (r : ResultMatch)
    (h : matchResult cs = some r) : r.status = "PASS" ∨ r.status = "FAIL" := by
  unfold matchResult at h
  simp only [Option.bind_eq_some] at h
  obtain ⟨p, hp, r2, h2, tcp, htc, r4, h4, mdp, hmd, r6, h6, se, hse, hr⟩ := h
  have hst := statusAlt_cases r6 se hse
  injection hr with hr
  rw [← hr]
  simpa using hst



/-! ## Lemmas about the parse_txt loop -/

theorem lineRecord_isSome (m : CorrMap) (l : List Char) :
    (lineRecord m l).isSome = (matchResult (trimChars l)).isSome := by
  unfold lineRecord
  cases hInfo : matchInfo (trimChars l) with
  | some i => rw [info_result_disjoint _ _ hInfo]; rfl
  | none =>
    cases hRes : matchResult (trimChars l) with
    | some r => rfl
    | none => rfl

theorem runLines_append (xs ys : List (List Char)) : ∀ m : CorrMap,
    runLines m (xs ++ ys) = runLines m xs ++ runLines (xs.foldl stepMap m) ys := by
  induction xs with
  | nil => intro m; simp [runLines]
  | cons l ls ih =>
    intro m
    simp only [List.cons_append, runLines, List.foldl_cons, List.append_eq, ih (stepMap m l), List.append_assoc]

theorem lookupType?_foldl (ls : List (List Char)) : ∀ (m : CorrMap) (tc : String),
    lookupType? (ls.foldl stepMap m) tc =
      match lastInfoType ls tc with
      | some t => some t
      | none => lookupType? m tc := by
  induction ls with
  | nil => intro m tc; rfl
  | cons l ls ih =>
    intro m tc
    simp only [List.foldl_cons, lastInfoType]
    rw [ih (stepMap m l) tc]
    cases hA : lastInfoType ls tc with
    | some t => rfl
    | none =>
      unfold stepMap
      cases hInfo : matchInfo (trimChars l) with
      | some i =>
        simp only [lookupType?]
        by_cases hc : i.test_case = tc
        · simp [hc]
        · simp [hc]
      | none => rfl

theorem runLines_length (ls : List (List Char)) : ∀ m : CorrMap,
    (runLines m ls).length = ls.countP (fun l => (matchResult (trimChars l)).isSome) := by
  induction ls with
  | nil => intro m; rfl
  | cons l ls ih =>
    intro m
    simp only [runLines, List.length_append, ih (stepMap m l), List.countP_cons]
    have : (lineRecord m l).toList.length = if (matchResult (trimChars l)).isSome then 1 else 0 := by
      rw [← lineRecord_isSome m l]
      cases lineRecord m l <;> rfl
    rw [this]
    rcases h : (matchResult (trimChars l)).isSome with _ | _ <;> simp [h, Nat.add_comm]

theorem runLines_status (ls : List (List Char)) : ∀ (m : CorrMap) (r : ResultRec),
    r ∈ runLines m ls → r.status = "PASS" ∨ r.status = "FAIL" := by
  induction ls with
  | nil => intro m r h; simp [runLines] at h
  | cons l ls ih =>
    intro m r h
    simp only [runLines, List.mem_append] at h
    rcases h with h | h
    · unfold lineRecord at h
      cases hInfo : matchInfo (trimChars l) with
      | some i => rw [hInfo] at h; simp at h
      | none =>
        rw [hInfo] at h
        cases hRes : matchResult (trimChars l) with
        | some rm =>
          rw [hRes] at h
          simp at h
          have := matchResult_status _ _ hRes
          rw [h]
          simpa using this
        | none => rw [hRes] at h; simp at h
    · exact ih (stepMap m l) r h



/-! ## Order lemmas for the aggregator -/

theorem char_eq_of_toNat_eq {a b : Char} (h : a.toNat = b.toNat) : a = b :=
  Char.ext (UInt32.ext h)

theorem lexLt_trans : ∀ (a b c : List Char),
    lexLt a b = true → lexLt b c = true → lexLt a c = true := by
  intro a
  induction a with
  | nil =>
    intro b c hab hbc
    cases b with
    | nil => simp [lexLt] at hab
    | cons y bs =>
      cases c with
      | nil => simp [lexLt] at hbc
      | cons z cs => rfl
  | cons x as ih =>
    intro b c hab hbc
    cases b with
    | nil => simp [lexLt] at hab
    | cons y bs =>
      cases c with
      | nil => simp [lexLt] at hbc
      | cons z cs =>
        simp only [lexLt] at hab hbc ⊢
        by_cases h1 : x.toNat < y.toNat
        · by_cases h2 : y.toNat < z.toNat
          · have : x.toNat < z.toNat := Nat.lt_trans h1 h2
            simp [this]
          · by_cases h3 : z.toNat < y.toNat
            · simp [h2, h3] at hbc
            · have : x.toNat < z.toNat := by omega
              simp [this]
        · by_cases h4 : y.toNat < x.toNat
          · simp [h1, h4] at hab
          · have hxy : x.toNat = y.toNat := by omega
            rw [if_neg h1, if_neg h4] at hab
            by_cases h2 : y.toNat < z.toNat
            · have : x.toNat < z.toNat := by omega
              simp [this]
            · by_cases h3 : z.toNat < y.toNat
              · simp [h2, h3] at hbc
              · rw [if_neg h2, if_neg h3] at hbc
                have hxz : ¬ x.toNat < z.toNat := by omega
                have hzx : ¬ z.toNat < x.toNat := by omega
                rw [if_neg hxz, if_neg hzx]
                exact ih bs cs hab hbc

theorem lexLt_connex : ∀ (a b : List Char),
    lexLt a b = false → a ≠ b → lexLt b a = true := by
  intro a
  induction a with
  | nil =>
    intro b h hne
    cases b with
    | nil => exact absurd rfl hne
    | cons y bs => simp [lexLt] at h
  | cons x as ih =>
    intro b h hne
    cases b with
    | nil => rfl
    | cons y bs =>
      simp only [lexLt] at h ⊢
      by_cases h1 : x.toNat < y.toNat
      · simp [h1] at h
      · by_cases h2 : y.toNat < x.toNat
        · simp [h2]
        · have hxy : x = y := char_eq_of_toNat_eq (by omega)
          subst hxy
          rw [if_neg h1, if_neg h1] at h ⊢
          have hne2 : as ≠ bs := by
            intro hh
            exact hne (by rw [hh])
          exact ih bs h hne2

theorem strLt_trans {a b c : String} (h1 : strLt a b = true) (h2 : strLt b c = true) :
    strLt a c = true :=
  lexLt_trans _ _ _ h1 h2

theorem strLt_connex {a b : String} (h : strLt a b = false) (hne : a ≠ b) :
    strLt b a = true := by
  apply lexLt_connex _ _ h
  intro hd
  apply hne
  cases a with
  | mk da =>
    cases b with
    | mk db =>
      simp only [String.toList] at hd
      rw [hd]


/-! ## The failure ranking: membership, counts and sortedness -/

theorem mem_insertKeyAsc (x : String) : ∀ (l : List String) (z : String),
    z ∈ insertKeyAsc x l ↔ z = x ∨ z ∈ l := by
  intro l
  induction l with
  | nil => intro z; simp [insertKeyAsc]
  | cons y ys ih =>
    intro z
    simp only [insertKeyAsc]
    by_cases h1 : strLt x y = true
    · simp [h1]
    · rw [if_neg h1]
      by_cases h2 : x = y
      · subst h2
        rw [if_pos rfl]
        simp only [List.mem_cons]
        tauto
      · rw [if_neg h2]
        simp only [List.mem_cons, ih z]
        tauto

theorem pairwise_insertKeyAsc (x : String) : ∀ l : List String,
    l.Pairwise (fun a b => strLt a b = true) →
    (insertKeyAsc x l).Pairwise (fun a b => strLt a b = true) := by
  intro l
  induction l with
  | nil => intro _; simp [insertKeyAsc]
  | cons y ys ih =>
    intro hp
    rw [List.pairwise_cons] at hp
    obtain ⟨hy, hys⟩ := hp
    simp only [insertKeyAsc]
    by_cases h1 : strLt x y = true
    · rw [if_pos h1]
      refine List.Pairwise.cons ?_ (List.Pairwise.cons hy hys)
      intro z hz
      rcases List.mem_cons.mp hz with rfl | hz
      · exact h1
      · exact strLt_trans h1 (hy z hz)
    · rw [if_neg h1]
      by_cases h2 : x = y
      · rw [if_pos h2]
        exact List.Pairwise.cons hy hys
      · rw [if_neg h2]
        refine List.Pairwise.cons ?_ (ih hys)
        intro z hz
        rcases (mem_insertKeyAsc x ys z).mp hz with rfl | hz
        · exact strLt_connex (by simpa using h1) h2
        · exact hy z hz

theorem pairwise_groupKeys : ∀ es : List String,
    (groupKeys es).Pairwise (fun a b => strLt a b = true) := by
  intro es
  induction es with
  | nil => simp [groupKeys]
  | cons e es ih => exact pairwise_insertKeyAsc e _ ih

theorem mem_groupKeys : ∀ (es : List String) (z : String),
    z ∈ groupKeys es ↔ z ∈ es := by
  intro es
  induction es with
  | nil => intro z; simp [groupKeys]
  | cons e es ih =>
    intro z
    simp only [groupKeys, mem_insertKeyAsc, ih, List.mem_cons]

theorem mem_insertByCount (x : String × Nat) : ∀ (l : List (String × Nat)) (z : String × Nat),
    z ∈ insertByCount x l ↔ z = x ∨ z ∈ l := by
  intro l
  induction l with
  | nil => intro z; simp [insertByCount]
  | cons y ys ih =>
    intro z
    simp only [insertByCount]
    by_cases h1 : x.2 ≤ y.2
    · simp [h1]
    · rw [if_neg h1]
      simp only [List.mem_cons, ih z]
      tauto

theorem mem_sortByCountAsc : ∀ (l : List (String × Nat)) (z : String × Nat),
    z ∈ sortByCountAsc l ↔ z ∈ l := by
  intro l
  induction l with
  | nil => intro z; simp [sortByCountAsc]
  | cons y ys ih =>
    intro z
    simp only [sortByCountAsc, mem_insertByCount, ih, List.mem_cons]

theorem pairwise_insertByCount (x : String × Nat) : ∀ l : List (String × Nat),
    l.Pairwise LexAsc → (∀ y ∈ l, strLt x.1 y.1 = true) →
    (insertByCount x l).Pairwise LexAsc := by
  intro l
  induction l with
  | nil => intro _ _; simp [insertByCount, List.pairwise_cons]
  | cons y ys ih =>
    intro hp hkey
    rw [List.pairwise_cons] at hp
    obtain ⟨hy, hys⟩ := hp
    simp only [insertByCount]
    by_cases h1 : x.2 ≤ y.2
    · rw [if_pos h1]
      refine List.Pairwise.cons ?_ (List.Pairwise.cons hy hys)
      intro z hz
      rcases List.mem_cons.mp hz with rfl | hz
      · rcases Nat.lt_or_ge x.2 z.2 with h | h
        · exact Or.inl h
        · exact Or.inr ⟨Nat.le_antisymm h1 h, hkey z (List.mem_cons_self _ _)⟩
      · rcases hy z hz with h | h
        · rcases Nat.lt_or_ge x.2 z.2 with h' | h'
          · exact Or.inl h'
          · exact Or.inr ⟨by omega, hkey z (List.mem_cons_of_mem _ hz)⟩
        · rcases Nat.lt_or_ge x.2 z.2 with h' | h'
          · exact Or.inl h'
          · exact Or.inr ⟨by omega, hkey z (List.mem_cons_of_mem _ hz)⟩
    · rw [if_neg h1]
      refine List.Pairwise.cons ?_ (ih hys (fun z hz => hkey z (List.mem_cons_of_mem _ hz)))
      intro z hz
      rcases (mem_insertByCount x _ z).mp hz with rfl | hz
      · exact Or.inl (by omega)
      · exact hy z hz

theorem pairwise_sortByCountAsc : ∀ l : List (String × Nat),
    l.Pairwise (fun a b => strLt a.1 b.1 = true) →
    (sortByCountAsc l).Pairwise LexAsc := by
  intro l
  induction l with
  | nil => intro _; simp [sortByCountAsc]
  | cons y ys ih =>
    intro hp
    rw [List.pairwise_cons] at hp
    obtain ⟨hy, hys⟩ := hp
    simp only [sortByCountAsc]
    refine pairwise_insertByCount y _ (ih hys) ?_
    intro z hz
    exact hy z ((mem_sortByCountAsc ys z).mp hz)

theorem errorSummary_pairwise (errs : List String) :
    (errorSummary errs).Pairwise LexDesc := by
  unfold errorSummary
  rw [List.pairwise_reverse]
  have hkeys := pairwise_groupKeys errs
  have hmap : ((groupKeys errs).map (fun k => (k, errs.count k))).Pairwise
      (fun a b => strLt a.1 b.1 = true) := by
    rw [List.pairwise_map]
    exact hkeys
  have := pairwise_sortByCountAsc _ hmap
  refine this.imp ?_
  intro a b h
  rcases h with h | ⟨h1, h2⟩
  · exact Or.inl h
  · exact Or.inr ⟨h1.symm, h2⟩

theorem errorSummary_mem (errs : List String) (p : String × Nat) :
    p ∈ errorSummary errs ↔ p.1 ∈ errs ∧ p.2 = errs.count p.1 := by
  unfold errorSummary
  rw [List.mem_reverse, mem_sortByCountAsc, List.mem_map]
  constructor
  · rintro ⟨k, hk, rfl⟩
    exact ⟨(mem_groupKeys errs k).mp hk, rfl⟩
  · rintro ⟨h1, h2⟩
    refine ⟨p.1, (mem_groupKeys errs p.1).mpr h1, ?_⟩
    cases p
    simp at h2 ⊢
    exact h2.symm



/-! ## Dispatch helpers and claims C1 to C4 -/

theorem matchTsHeader_cons_none (c : Char) (rest : List Char) (h : c ≠ '[') :
    matchTsHeader (c :: rest) = none := by
  unfold matchTsHeader
  simp [h]

theorem matchInfo_no_bracket (c : Char) (rest : List Char) (h : c ≠ '[') :
    matchInfo (c :: rest) = none := by
  unfold matchInfo
  rw [matchTsHeader_cons_none c rest h]
  rfl

theorem matchResult_no_bracket (c : Char) (rest : List Char) (h : c ≠ '[') :
    matchResult (c :: rest) = none := by
  unfold matchResult
  rw [matchTsHeader_cons_none c rest h]
  rfl

theorem parse_file_cols (inp : FileInput) (df : DataFrame)
    (h : parse_file inp = .ok df) : df.cols = EXPECTED_COLUMNS := by
  cases inp with
  | stream n c =>
    simp only [parse_file, Except.ok.injEq] at h
    rw [← h]
    rfl
  | path n c =>
    simp only [parse_file] at h
    cases h1 : endswith n ".csv" with
    | true =>
      rw [h1] at h
      simp only [if_pos] at h
      unfold csvBranch at h
      cases h2 : (EXPECTED_COLUMNS.filter (fun col => !((read_csv c).cols.contains col))).isEmpty with
      | true =>
        rw [h2] at h
        simp only [if_pos, Except.ok.injEq] at h
        rw [← h]
        rfl
      | false =>
        rw [h2] at h
        simp at h
    | false =>
      rw [h1] at h
      simp only [Bool.false_eq_true, if_false] at h
      cases h2 : (endswith n ".txt" || endswith n ".log") with
      | true =>
        rw [h2] at h
        simp only [if_pos, Except.ok.injEq] at h
        rw [← h]
        rfl
      | false =>
        rw [h2] at h
        simp at h

theorem txtDataFrame_fields (content : String) (row : List Field)
    (hrow : row ∈ (txtDataFrame content).rows) (f : Field) (hf : f ∈ row) :
    ∃ s, f = Field.str s := by
  simp only [txtDataFrame, List.mem_map] at hrow
  obtain ⟨rec, _, rfl⟩ := hrow
  simp only [recToRow, List.mem_cons, List.not_mem_nil, or_false] at hf
  rcases hf with rfl | rfl | rfl | rfl | rfl | rfl
  · exact ⟨rec.timestamp, rfl⟩
  · exact ⟨rec.test_case, rfl⟩
  · exact ⟨rec.module, rfl⟩
  · exact ⟨rec.status, rfl⟩
  · exact ⟨rec.error, rfl⟩
  · exact ⟨rec.test_type, rfl⟩

/-- Claim C1, counterexample.  The claim says the free-text path parses the
simple grammar of lines like a colon and a status, and that this two-line
scenario input yields 2 records, one of them for test_can_bus with status
FAIL and error TimeoutError; the code has no matcher for that grammar, so
the scenario input yields 0 records. -/
theorem C1_cex :
    parse_txt_records "test_adc_voltage: PASS\ntest_can_bus: FAIL - TimeoutError\n" = [] ∧
    (parse_txt_records "test_adc_voltage: PASS\ntest_can_bus: FAIL - TimeoutError\n").length ≠ 2 := by
  constructor
  · rfl
  · decide

/-- Claim C1, amended.  Lines in the simple form of a test-case name, a
colon and a status are not part of the free-text grammar: any line whose
trimmed text begins with a word character (as every simple-grammar line
does, and no line of either recognized pattern can) matches neither
pattern, contributes no record and leaves the correlation state unchanged;
the claim scenario therefore yields 0 records, as the counterexample
evaluates. -/
theorem C1_prop (m : CorrMap) (line : List Char) (c : Char) (rest : List Char)
    (htrim : trimChars line = c :: rest) (hword : isWordChar c = true) :
    lineRecord m line = none ∧ stepMap m line = m := by
  have hc : c ≠ '[' := by
    intro hh
    rw [hh] at hword
    exact absurd hword (by decide)
  have hinfo : matchInfo (trimChars line) = none := by
    rw [htrim]; exact matchInfo_no_bracket c rest hc
  have hres : matchResult (trimChars line) = none := by
    rw [htrim]; exact matchResult_no_bracket c rest hc
  constructor
  · unfold lineRecord
    rw [hinfo, hres]
  · unfold stepMap
    rw [hinfo]

/-- Witness for C1_prop at the first scenario line. -/
theorem C1_witness :
    lineRecord [] "test_adc_voltage: PASS".toList = none ∧
    stepMap [] "test_adc_voltage: PASS".toList = [] :=
  C1_prop [] "test_adc_voltage: PASS".toList 't' "est_adc_voltage: PASS".toList
    (by decide) (by decide)

/-- Claim C2, counterexample.  An INFO line declaring test_case t with
type A precedes the RESULT line for t, yet the emitted record's test_type
is B, the type of the second, later INFO declaration, so the claim as
universally stated over every preceding declaration fails. -/
theorem C2_cex :
    matchInfo (trimChars "[1] [INFO] Running test: t [type=A]".toList) =
      some ⟨"1", "t", "A"⟩ ∧
    matchResult (trimChars "[1] [RESULT] t [M] PASS".toList) =
      some ⟨"1", "t", "M", "PASS", ""⟩ ∧
    parse_txt_records
      "[1] [INFO] Running test: t [type=A]\n[1] [INFO] Running test: t [type=B]\n[1] [RESULT] t [M] PASS" =
      [⟨"1", "t", "M", "PASS", "", "B"⟩] ∧
    ("B" : String) ≠ "A" := by
  refine ⟨by decide, by decide, by decide, by decide⟩

/-- Claim C2, amended.  The record emitted for a result line carries the
test_type declared by the most recent INFO line for its test_case among
the preceding lines (last declaration wins), and the empty string when no
preceding INFO line declares it. -/
theorem C2_prop (pre suf : List (List Char)) (line : List Char) (r : ResultMatch)
    (h : matchResult (trimChars line) = some r) :
    ∃ more, runLines [] (pre ++ line :: suf) =
      runLines [] pre ++
        (⟨r.timestamp, r.test_case, r.module, r.status, r.error,
          (lastInfoType pre r.test_case).getD ""⟩ : ResultRec) :: more := by
  refine ⟨runLines (stepMap (pre.foldl stepMap []) line) suf, ?_⟩
  rw [runLines_append pre (line :: suf) []]
  have hrec : lineRecord (pre.foldl stepMap []) line =
      some ⟨r.timestamp, r.test_case, r.module, r.status, r.error,
        (lastInfoType pre r.test_case).getD ""⟩ := by
    have hlk : lookupType (List.foldl stepMap [] pre) r.test_case =
        (lastInfoType pre r.test_case).getD "" := by
      unfold lookupType
      rw [lookupType?_foldl]
      cases lastInfoType pre r.test_case with
      | some t => rfl
      | none => rfl
    unfold lineRecord
    rw [result_info_disjoint _ _ h, h]
    show some (⟨r.timestamp, r.test_case, r.module, r.status, r.error,
      lookupType (List.foldl stepMap [] pre) r.test_case⟩ : ResultRec) = _
    rw [hlk]
  show runLines [] pre ++ runLines (pre.foldl stepMap []) (line :: suf) = _
  rw [runLines, hrec]
  rfl

/-- Witness for C2_prop: one INFO line for t precedes the result line,
so the record carries its declared type. -/
theorem C2_witness :
    ∃ more, runLines [] (["[1] [INFO] Running test: t [type=X]".toList] ++
        "[1] [RESULT] t [M] FAIL - Boom".toList :: []) =
      runLines [] ["[1] [INFO] Running test: t [type=X]".toList] ++
        (⟨"1", "t", "M", "FAIL", "Boom",
          (lastInfoType ["[1] [INFO] Running test: t [type=X]".toList] "t").getD ""⟩ : ResultRec) :: more :=
  C2_prop ["[1] [INFO] Running test: t [type=X]".toList] []
    "[1] [RESULT] t [M] FAIL - Boom".toList ⟨"1", "t", "M", "FAIL", "Boom"⟩ (by decide)

/-- Claim C3, counterexample.  A CSV with all six required columns whose
timestamp, error and test_type cells are left empty parses successfully,
but the unsupplied cells come out as the NaN missing marker, not as the
empty string the claim requires. -/
theorem C3_cex :
    parse_file (.path "results.csv"
      "timestamp,test_case,module,status,error,test_type\n,t1,m1,PASS,,\n") =
      .ok ⟨EXPECTED_COLUMNS,
        [[Field.nan, Field.str "t1", Field.str "m1", Field.str "PASS",
          Field.nan, Field.nan]]⟩ ∧
    Field.nan ≠ Field.str "" :=
  ⟨rfl, by decide⟩

/-- Claim C3, amended.  Every successfully parsed input does come out with
exactly the fixed, ordered column set, and on the free-text path every
cell is a string (unsupplied fields having been normalized to the empty
string); but on the CSV path a cell left empty in the file is the pandas
NaN missing marker, not the empty string. -/
theorem C3_prop :
    (∀ (inp : FileInput) (df : DataFrame),
        parse_file inp = .ok df → df.cols = EXPECTED_COLUMNS) ∧
    (∀ (content : String), ∀ row ∈ (txtDataFrame content).rows, ∀ f ∈ row,
        ∃ s, f = Field.str s) :=
  ⟨parse_file_cols, txtDataFrame_fields⟩

/-- Witness for C3_prop at a concrete stream input and a concrete
free-text row. -/
theorem C3_witness :
    (txtDataFrame "[1] [RESULT] t [M] PASS").cols = EXPECTED_COLUMNS ∧
    ∃ s, Field.str "PASS" = Field.str s :=
  ⟨C3_prop.1 (.stream "s" "[1] [RESULT] t [M] PASS") _ rfl,
   C3_prop.2 "[1] [RESULT] t [M] PASS"
     [Field.str "1", Field.str "t", Field.str "M", Field.str "PASS",
      Field.str "", Field.str ""] (by decide) (Field.str "PASS") (by decide)⟩

/-- Claim C4, confirmed.  On the free-text path a line matching no grammar
is silently dropped and parsing of the rest continues: the number of
records equals exactly the number of lines whose stripped text matches the
result grammar (INFO lines match the result grammar never, and contribute
no record either). -/
theorem C4_prop (content : String) :
    (parse_txt_records content).length =
      (splitOnNl content.toList).countP (fun l => (matchResult (trimChars l)).isSome) :=
  runLines_length _ []



/-! ## Claims C5 to C10 -/

/-- Claim C5, confirmed.  A csv path reads the table; when any expected
column is absent the parse fails with an error carrying exactly the list
of missing column names, in schema order, and its message interpolates
exactly that list; when none is missing no error is raised and the table
is projected to the expected columns. -/
theorem C5_prop (name content : String) (h : endswith name ".csv" = true) :
    (EXPECTED_COLUMNS.filter (fun c => !((read_csv content).cols.contains c)) ≠ [] →
      parse_file (.path name content) =
        .error (.missingColumns
          (EXPECTED_COLUMNS.filter (fun c => !((read_csv content).cols.contains c))))) ∧
    (EXPECTED_COLUMNS.filter (fun c => !((read_csv content).cols.contains c)) = [] →
      parse_file (.path name content) =
        .ok (projectDF (read_csv content) EXPECTED_COLUMNS)) ∧
    (∀ ms, renderError (.missingColumns ms) =
      "Missing expected columns: " ++ pyListRepr ms) := by
  have hp : parse_file (.path name content) = csvBranch content := by
    simp [parse_file, h]
  refine ⟨?_, ?_, fun ms => rfl⟩
  · intro hne
    rw [hp]
    unfold csvBranch
    rw [if_neg]
    simp only [List.isEmpty_iff]
    exact hne
  · intro heq
    rw [hp]
    unfold csvBranch
    rw [if_pos]
    simp only [List.isEmpty_iff]
    exact heq

/-- Witness for C5_prop at the headers of the repository's own broken
CSV fixture: five of the six expected columns are absent and are listed
in schema order. -/
theorem C5_witness :
    endswith "broken.csv" ".csv" = true ∧
    parse_file (.path "broken.csv" "case_name,status\ntest_a,PASS\ntest_b,FAIL\n") =
      .error (.missingColumns
        ["timestamp", "test_case", "module", "error", "test_type"]) := by
  refine ⟨rfl, ?_⟩
  have h := (C5_prop "broken.csv" "case_name,status\ntest_a,PASS\ntest_b,FAIL\n" rfl).1
  exact h (by decide)

/-- Claim C6, confirmed.  A path whose name ends in none of the three
recognized extensions fails fast with the unsupported-type error whose
message names the offending path and so ends in the rejected extension;
a path ending in a recognized extension never produces that error. -/
theorem C6_prop (name content : String) :
    ((endswith name ".csv" = false → endswith name ".txt" = false →
      endswith name ".log" = false →
        parse_file (.path name content) = .error (.unsupportedType name) ∧
        ∀ base ext, name = base ++ ext →
          renderError (.unsupportedType name) =
            ("Unsupported file type: " ++ base) ++ ext)) ∧
    ((endswith name ".csv" = true ∨ endswith name ".txt" = true ∨
      endswith name ".log" = true) →
        ∀ e, parse_file (.path name content) ≠ .error (.unsupportedType e)) := by
  constructor
  · intro h1 h2 h3
    constructor
    · simp [parse_file, h1, h2, h3]
    · intro base ext heq
      subst heq
      show "Unsupported file type: " ++ (base ++ ext) = _
      rw [← String.append_assoc]
  · intro hrec e
    cases h1 : endswith name ".csv" with
    | true =>
      simp only [parse_file, h1, if_pos]
      unfold csvBranch
      cases hE : (EXPECTED_COLUMNS.filter
          (fun c => !((read_csv content).cols.contains c))).isEmpty with
      | true => simp
      | false => simp
    | false =>
      rcases hrec with h | h | h
      · rw [h1] at h; exact absurd h (by simp)
      · simp [parse_file, h1, h]
      · simp [parse_file, h1, h]

/-- Witness for C6_prop at the extension the spec itself uses as the
example of an unsupported type. -/
theorem C6_witness :
    parse_file (.path "unsupported_file_type.xyz" "") =
      .error (.unsupportedType "unsupported_file_type.xyz") ∧
    renderError (.unsupportedType "unsupported_file_type.xyz") =
      ("Unsupported file type: " ++ "unsupported_file_type") ++ ".xyz" := by
  have h := (C6_prop "unsupported_file_type.xyz" "").1 rfl rfl rfl
  exact ⟨h.1, h.2 "unsupported_file_type" ".xyz" (by decide)⟩

/-- Claim C7, counterexample.  The dispatch is case-sensitive: a path
named with the upper-case extension .CSV is not routed to the CSV path
but rejected with the unsupported-type error, even though its content is
a well-formed table with all six expected columns. -/
theorem C7_cex :
    parse_file (.path "data.CSV"
      "timestamp,test_case,module,status,error,test_type\n1,t,m,PASS,,\n") =
      .error (.unsupportedType "data.CSV") ∧
    endswith "data.CSV" ".csv" = false :=
  ⟨rfl, rfl⟩

/-- Claim C7, amended.  Dispatch on a path input compares the file name
suffix case-sensitively: exactly .csv routes to the delimited-table
branch, exactly .txt or .log to the free-text branch, and everything
else, upper-case variants of the three extensions included, fails with
the unsupported-type error. -/
theorem C7_prop (name content : String) :
    (endswith name ".csv" = true →
      parse_file (.path name content) = csvBranch content) ∧
    (endswith name ".csv" = false →
      (endswith name ".txt" = true ∨ endswith name ".log" = true) →
      parse_file (.path name content) = .ok (txtDataFrame content)) ∧
    (endswith name ".csv" = false → endswith name ".txt" = false →
      endswith name ".log" = false →
      parse_file (.path name content) = .error (.unsupportedType name)) := by
  refine ⟨?_, ?_, ?_⟩
  · intro h
    simp [parse_file, h]
  · intro h1 h
    rcases h with h | h
    · simp [parse_file, h1, h]
    · simp [parse_file, h1, h]
  · intro h1 h2 h3
    simp [parse_file, h1, h2, h3]

/-- Witness for C7_prop: a lower-case .log path is routed to the
free-text branch. -/
theorem C7_witness :
    parse_file (.path "a.log" "") = .ok (txtDataFrame "") :=
  (C7_prop "a.log" "").2.1 rfl (Or.inr rfl)

/-- Claim C8, counterexample.  The CSV path performs no status
validation: a row whose status is SKIP, outside the PASS/FAIL vocabulary,
is neither dropped nor coerced but appears verbatim in the output. -/
theorem C8_cex :
    parse_file (.path "s.csv"
      "timestamp,test_case,module,status,error,test_type\n1,t,m,SKIP,e,u\n") =
      .ok ⟨EXPECTED_COLUMNS,
        [[Field.str "1", Field.str "t", Field.str "m", Field.str "SKIP",
          Field.str "e", Field.str "u"]]⟩ ∧
    ("SKIP" : String) ≠ "PASS" ∧ ("SKIP" : String) ≠ "FAIL" :=
  ⟨rfl, by decide, by decide⟩

/-- Claim C8, amended.  On the free-text path the invariant holds: every
emitted record's status is exactly the capital string PASS or FAIL, and
lines not matching the result grammar are dropped; the CSV path, however,
passes whatever status value the file contains straight through. -/
theorem C8_prop (content : String) (rec : ResultRec)
    (h : rec ∈ parse_txt_records content) :
    rec.status = "PASS" ∨ rec.status = "FAIL" :=
  runLines_status _ [] rec h

/-- Witness for C8_prop at a one-line FAIL log. -/
theorem C8_witness :
    (⟨"1", "t", "M", "FAIL", "", ""⟩ : ResultRec).status = "PASS" ∨
    (⟨"1", "t", "M", "FAIL", "", ""⟩ : ResultRec).status = "FAIL" :=
  C8_prop "[1] [RESULT] t [M] FAIL" ⟨"1", "t", "M", "FAIL", "", ""⟩ (by decide)

/-- Claim C9, counterexample.  Three FAIL rows whose distinct errors are
first seen in the order B, A, C all tie at one occurrence; the claim says
ties keep first-seen order, but the code groups the keys in ascending
alphabetical order and the descending count sort then reverses them, so
the ranking comes out C, B, A. -/
theorem C9_cex :
    top_errors ⟨EXPECTED_COLUMNS,
      [[Field.str "1", Field.str "a", Field.str "m", Field.str "FAIL",
        Field.str "B", Field.str ""],
       [Field.str "1", Field.str "b", Field.str "m", Field.str "FAIL",
        Field.str "A", Field.str ""],
       [Field.str "1", Field.str "c", Field.str "m", Field.str "FAIL",
        Field.str "C", Field.str ""]]⟩ = [("C", 1), ("B", 1), ("A", 1)] ∧
    ([("C", 1), ("B", 1), ("A", 1)] : List (String × Nat)) ≠
      [("B", 1), ("A", 1), ("C", 1)] :=
  ⟨by decide, by decide⟩

/-- Claim C9, amended.  The failure ranking groups the FAIL rows by error,
carries the exact occurrence count of every grouped error and only those,
and is sorted by descending count with rows of equal count in descending
lexicographic order of the error string (the grouping sorts keys
ascending and the descending count sort reverses ties), not first-seen
order; the claim scenario with errors T, N, T still yields T with 2
before N with 1. -/
theorem C9_prop :
    (∀ df : DataFrame,
      (∀ p ∈ top_errors df,
        p.1 ∈ failErrors df ∧ p.2 = (failErrors df).count p.1) ∧
      (∀ e ∈ failErrors df, (e, (failErrors df).count e) ∈ top_errors df) ∧
      (top_errors df).Pairwise LexDesc) ∧
    errorSummary ["T", "N", "T"] = [("T", 2), ("N", 1)] := by
  constructor
  · intro df
    refine ⟨?_, ?_, errorSummary_pairwise _⟩
    · intro p hp
      exact (errorSummary_mem _ p).mp hp
    · intro e he
      exact (errorSummary_mem _ (e, (failErrors df).count e)).mpr ⟨he, rfl⟩
  · decide

/-- Witness for C9_prop at a one-FAIL-row table. -/
theorem C9_witness :
    ("E" : String) ∈ failErrors ⟨EXPECTED_COLUMNS,
      [[Field.str "1", Field.str "t", Field.str "m", Field.str "FAIL",
        Field.str "E", Field.str ""]]⟩ ∧
    (1 : Nat) = (failErrors ⟨EXPECTED_COLUMNS,
      [[Field.str "1", Field.str "t", Field.str "m", Field.str "FAIL",
        Field.str "E", Field.str ""]]⟩).count "E" :=
  (C9_prop.1 ⟨EXPECTED_COLUMNS,
      [[Field.str "1", Field.str "t", Field.str "m", Field.str "FAIL",
        Field.str "E", Field.str ""]]⟩).1 ("E", 1) (by decide)

/-- Claim C10, confirmed.  A file-like input is routed to the free-text
parser unconditionally, whatever name it exposes, so it can raise neither
the missing-columns nor the unsupported-type error; a stream named like a
CSV and containing a well-formed CSV table is still parsed as free text,
where no table line matches a grammar, so it yields zero records. -/
theorem C10_prop :
    (∀ name content : String,
      parse_file (.stream name content) = .ok (txtDataFrame content)) ∧
    parse_file (.stream "data.csv"
      "timestamp,test_case,module,status,error,test_type\n2025-07-14 02:35:05,test_adc_voltage,POWER,PASS,,\n") =
      .ok ⟨EXPECTED_COLUMNS, []⟩ :=
  ⟨fun _ _ => rfl, rfl⟩


end Testwise
